import Mathlib

/-!
Shallow embedding of the GitHub webhook server (src/webhooks): the Express
endpoint `POST /webhook` (index.ts), the `verifySignature` middleware, the
`WebhookHandlers` dispatch table, and the six event handlers
(push, pullRequest, release, workflow, issues, repository).

Conventions of the embedding:
* JavaScript exceptions are `Except String`; reading a property of
  `undefined` (a missing payload field) is the thrown `TypeError`.
* Raw request bodies and HMAC digests are `String`s; Node `Buffer` byte
  length is the UTF-8 byte size.
* The HMAC-SHA-256 primitive (`createHmac`) and `JSON.parse` are external
  runtime facilities, taken as parameters (`hmacHex`, `decode`); theorems
  quantify over them.
* Handlers return the list of outbound GitHub API calls they performed
  (the observable effect relevant to the octokit-absent degraded mode);
  log lines are not modelled except where a claim mentions them.
-/

/-- Node `crypto.timingSafeEqual(Buffer.from a, Buffer.from b)`: throws a
`RangeError` when the byte lengths differ, otherwise compares contents. -/
def timingSafeEqual (a b : String) : Except String Bool :=
  if a.utf8ByteSize = b.utf8ByteSize then .ok (a == b)
  else .error "Input buffers must have the same length"

/-- Reading property `desc` of a possibly-`undefined` JavaScript value:
a missing field throws `TypeError`. -/
def jsGet {α : Type} (v : Option α) (desc : String) : Except String α :=
  match v with
  | some x => .ok x
  | none => .error ("TypeError: Cannot read properties of undefined (reading " ++ desc ++ ")")

/-- Replacement of the first (leftmost) occurrence of `pat` on character
lists; no occurrence leaves the list unchanged. -/
def replaceFirstL (pat rep : List Char) : List Char → List Char
  | [] => []
  | c :: rest =>
    if List.isPrefixOf pat (c :: rest) then rep ++ (c :: rest).drop pat.length
    else c :: replaceFirstL pat rep rest

/-- JavaScript `s.replace(pat, rep)` with a string pattern: replaces only the
first occurrence. -/
def jsReplaceOnce (s pat rep : String) : String :=
  ⟨replaceFirstL pat.data rep.data s.data⟩

/-- JavaScript `s.startsWith(pre)`. -/
def jsStartsWith (s pre : String) : Bool := List.isPrefixOf pre.data s.data

/-- JavaScript `s.endsWith(suf)`. -/
def jsEndsWith (s suf : String) : Bool :=
  List.isPrefixOf suf.data.reverse s.data.reverse

/-- JavaScript `s.toLowerCase()` on ASCII text. -/
def jsToLower (s : String) : String := ⟨s.data.map Char.toLower⟩

/-- Occurrence of `sub` as a contiguous run anywhere in `s`. -/
def listHasRun : List Char → List Char → Bool
  | sub, [] => sub.isEmpty
  | sub, c :: rest => List.isPrefixOf sub (c :: rest) || listHasRun sub rest

/-- JavaScript `s.includes(sub)`. -/
def jsIncludes (s sub : String) : Bool := listHasRun sub.data s.data

/-- One entry of a push payload's `commits` array. The three file arrays may
be absent (the code reads them as `commit.added || []` etc.). -/
structure Commit where
  id : String := ""
  added : Option (List String) := none
  modified : Option (List String) := none
  removed : Option (List String) := none
deriving DecidableEq, Repr

/-- The `repository` object of a payload. Sub-fields the code reads off an
existing repository object (`full_name`, `owner.login`, `name`) are modelled
as always present: reading them off an object never throws. -/
structure Repository where
  full_name : String := ""
  owner_login : String := ""
  name : String := ""
deriving DecidableEq, Repr

/-- The `pull_request` object of a pull_request payload. -/
structure PullRequestData where
  number : Nat := 0
  title : String := ""
  user_login : String := ""
  merged : Bool := false
  base_ref : String := ""
deriving DecidableEq, Repr

/-- The `issue` object of an issues payload; `body` may be absent (the code
reads it as `issue.body || ''`). -/
structure IssueData where
  number : Nat := 0
  title : String := ""
  user_login : String := ""
  body : Option String := none
deriving DecidableEq, Repr

/-- The `release` object of a release payload. -/
structure ReleaseData where
  tag_name : String := ""
  name : String := ""
  prerelease : Bool := false
  body : Option String := none
deriving DecidableEq, Repr

/-- The `workflow_run` object of a workflow_run payload; `conclusion` is null
until the run completes (the code switches on it). -/
structure WorkflowRunData where
  name : String := ""
  status : String := ""
  conclusion : Option String := none
  head_branch : String := ""
  actor_login : String := ""
deriving DecidableEq, Repr

/-- The decoded JSON body of a delivery. Every top-level field a handler
destructures is optional: absence models the field missing from the JSON
document, and dereferencing an absent field throws (`jsGet`). -/
structure Payload where
  action : Option String := none
  repository : Option Repository := none
  ref : Option String := none
  commits : Option (List Commit) := none
  pusher_name : Option String := none
  pull_request : Option PullRequestData := none
  issue : Option IssueData := none
  label_name : Option String := none
  assignee_login : Option String := none
  release : Option ReleaseData := none
  workflow_run : Option WorkflowRunData := none
deriving DecidableEq, Repr

/-- The optional authenticated GitHub API client (`octokit` is null when no
GITHUB_TOKEN is configured). Query endpoints the handlers branch on are pure
functions of the environment; mutation endpoints are only recorded. -/
structure Octokit where
  pullsListFilesNames : Repository → Nat → List String
  pullsListCreatorCount : Repository → String → Nat
  issuesListForRepoCreatorCount : Repository → String → Nat

/-- Models `file.match(/^src\/([^\/]+)\/ /)` (without the stray blank) on the
character list of the path: literal `src/`, then a captured nonempty run of
non-slash characters, then `/`. Returns the capture. -/
def serverMatchL (cs : List Char) : Option (List Char) :=
  match cs with
  | a :: b :: c :: d :: rest =>
    if a = 's' ∧ b = 'r' ∧ c = 'c' ∧ d = '/' then
      let seg := rest.takeWhile (· ≠ '/')
      if seg ≠ [] ∧ seg.length < rest.length then some seg else none
    else none
  | _ => none

/-- The regex match used by `PushHandler.getAffectedServers` and
`PullRequestHandler.getAffectedServersFromPaths`. -/
def serverMatch (file : String) : Option String :=
  (serverMatchL file.data).map fun seg => ⟨seg⟩

/-- `commit.added || []` concatenated with `modified` and `removed`
defaults, exactly the `changedFiles` array both push helpers build. -/
def changedFilesOf (c : Commit) : List String :=
  c.added.getD [] ++ c.modified.getD [] ++ c.removed.getD []

/-- `servers.add(match[1])` on a JavaScript `Set`, which keeps insertion
order and ignores duplicates, fused with the regex test of the loop body. -/
def addServer (acc : List String) (file : String) : List String :=
  match serverMatch file with
  | some m => if m ∈ acc then acc else acc ++ [m]
  | none => acc

/-- PushHandler.getAffectedServers (push.ts lines 113-132). -/
def PushHandler.getAffectedServers (commits : List Commit) : List String :=
  commits.foldl (fun servers c => (changedFilesOf c).foldl addServer servers) []

/-- PullRequestHandler.getAffectedServersFromPaths (pullRequest.ts lines 255-266). -/
def PullRequestHandler.getAffectedServersFromPaths (paths : List String) : List String :=
  paths.foldl addServer []

/-- PushHandler.triggerServerTests (push.ts lines 134-147): returns at once
when octokit is null; with octokit it only logs intent, performing no API
call either way. -/
def PushHandler.triggerServerTests (_octokit : Option Octokit)
    (_repository : Repository) (_servers : List String) : List String :=
  []

/-- PushHandler.handleMainBranchPush (push.ts lines 32-52). -/
def PushHandler.handleMainBranchPush (octokit : Option Octokit)
    (repository : Repository) (commits : List Commit) : List String :=
  let affectedServers := PushHandler.getAffectedServers commits
  if affectedServers.length > 0 then
    PushHandler.triggerServerTests octokit repository affectedServers
  else []

/-- PushHandler.handleReleaseBranchPush (push.ts lines 54-80): dispatches the
release workflow only when octokit is configured; an API error there is
caught and logged, never rethrown. -/
def PushHandler.handleReleaseBranchPush (octokit : Option Octokit)
    (_repository : Repository) : List String :=
  match octokit with
  | some _ => ["actions.createWorkflowDispatch"]
  | none => []

/-- The `importantFiles` list of PushHandler.checkForImportantFileChanges. -/
def importantFiles : List String :=
  ["package.json", "pyproject.toml", ".github/workflows/", "README.md"]

/-- PushHandler.checkForImportantFileChanges (push.ts lines 82-111): computes
per commit the changed files hitting `importantFiles` and logs them; no API
call. The returned value is the logged information. -/
def PushHandler.checkForImportantFileChanges (commits : List Commit) :
    List (String × List String) :=
  commits.filterMap fun commit =>
    let importantChanges := (changedFilesOf commit).filter fun file =>
      importantFiles.any fun important => jsIncludes file important
    if importantChanges.length > 0 then some (commit.id, importantChanges) else none

/-- PushHandler.handle (push.ts lines 7-30). Field dereferences follow the
source order: `ref.replace` (line 9), then the log-object fields
`repository.full_name`, `commits.length`, `pusher.name` (lines 11-16). -/
def PushHandler.handle (octokit : Option Octokit) (payload : Payload) :
    Except String (List String) := do
  let ref ← jsGet payload.ref "replace"
  let branch := jsReplaceOnce ref "refs/heads/" ""
  let repository ← jsGet payload.repository "full_name"
  let commits ← jsGet payload.commits "length"
  let _pusherName ← jsGet payload.pusher_name "name"
  let callsMain :=
    if branch = "main" || branch = "master" then
      PushHandler.handleMainBranchPush octokit repository commits
    else []
  let callsRelease :=
    if jsStartsWith branch "release/" then
      PushHandler.handleReleaseBranchPush octokit repository
    else []
  let _logged := PushHandler.checkForImportantFileChanges commits
  pure (callsMain ++ callsRelease)

/-- PullRequestHandler.addLabelsBasedOnChanges (pullRequest.ts lines
109-160): no-op without octokit; otherwise lists the PR files, computes the
labels, and adds them when nonempty. API failures are caught and logged. -/
def PullRequestHandler.addLabelsBasedOnChanges (octokit : Option Octokit)
    (repository : Repository) (pullRequest : PullRequestData) : List String :=
  match octokit with
  | none => []
  | some ok =>
    let changedPaths := ok.pullsListFilesNames repository pullRequest.number
    let labels :=
      (if changedPaths.any fun path => jsEndsWith path ".md" then ["documentation"] else []) ++
      (if changedPaths.any fun path => jsIncludes path ".github/workflows" then ["ci/cd"] else []) ++
      (PullRequestHandler.getAffectedServersFromPaths changedPaths).map
        (fun server => "server:" ++ server) ++
      (if changedPaths.any fun path =>
          jsIncludes path "package.json" || jsIncludes path "pyproject.toml" then
        ["dependencies"] else [])
    ["pulls.listFiles"] ++ (if labels.length > 0 then ["issues.addLabels"] else [])

/-- PullRequestHandler.checkAffectedServers (pullRequest.ts lines 162-196). -/
def PullRequestHandler.checkAffectedServers (octokit : Option Octokit)
    (repository : Repository) (pullRequest : PullRequestData) : List String :=
  match octokit with
  | none => []
  | some ok =>
    let changedPaths := ok.pullsListFilesNames repository pullRequest.number
    let affectedServers := PullRequestHandler.getAffectedServersFromPaths changedPaths
    ["pulls.listFiles"] ++ (if affectedServers.length > 0 then ["issues.createComment"] else [])

/-- PullRequestHandler.addWelcomeComment (pullRequest.ts lines 198-237):
comments only when the author has exactly one PR in the repository. -/
def PullRequestHandler.addWelcomeComment (octokit : Option Octokit)
    (repository : Repository) (pullRequest : PullRequestData) : List String :=
  match octokit with
  | none => []
  | some ok =>
    ["pulls.list"] ++
      (if ok.pullsListCreatorCount repository pullRequest.user_login = 1 then
        ["issues.createComment"] else [])

/-- PullRequestHandler.requestReviewers (pullRequest.ts lines 239-253):
placeholder that only logs. -/
def PullRequestHandler.requestReviewers (octokit : Option Octokit)
    (_repository : Repository) (_pullRequest : PullRequestData) : List String :=
  match octokit with
  | none => []
  | some _ => []

/-- PullRequestHandler.handlePROpened (pullRequest.ts lines 36-53). -/
def PullRequestHandler.handlePROpened (octokit : Option Octokit)
    (repository : Repository) (pullRequest : PullRequestData) : List String :=
  PullRequestHandler.addLabelsBasedOnChanges octokit repository pullRequest ++
  PullRequestHandler.checkAffectedServers octokit repository pullRequest ++
  PullRequestHandler.addWelcomeComment octokit repository pullRequest

/-- PullRequestHandler.handlePRClosed and handlePRMerged (pullRequest.ts
lines 67-107): logging only. -/
def PullRequestHandler.handlePRClosed (_octokit : Option Octokit)
    (_repository : Repository) (_pullRequest : PullRequestData) : List String :=
  []

/-- PullRequestHandler.handle (pullRequest.ts lines 7-34). Dereferences
`repository.full_name` and `pull_request.number` (log object, lines 10-16),
then switches on `action`. -/
def PullRequestHandler.handle (octokit : Option Octokit) (payload : Payload) :
    Except String (List String) := do
  let repository ← jsGet payload.repository "full_name"
  let pullRequest ← jsGet payload.pull_request "number"
  let action := payload.action
  if action = some "opened" then
    pure (PullRequestHandler.handlePROpened octokit repository pullRequest)
  else if action = some "synchronize" then
    pure (PullRequestHandler.checkAffectedServers octokit repository pullRequest)
  else if action = some "closed" then
    pure (PullRequestHandler.handlePRClosed octokit repository pullRequest)
  else if action = some "ready_for_review" then
    pure (PullRequestHandler.requestReviewers octokit repository pullRequest)
  else
    pure []

/-- JavaScript regex `\w`: ASCII word character. -/
def wChar (c : Char) : Bool := c.isAlphanum || c = '_'

/-- JavaScript regex `[:\s]`: colon or whitespace. -/
def sepChar (c : Char) : Bool := c = ':' || c.isWhitespace

/-- Match of `/server[:\s]+(\w+)/` anchored at the head of the list:
literal `server`, one or more separator characters, then the captured
maximal nonempty word run. -/
def serverMentionAt : List Char → Option (List Char)
  | 's' :: 'e' :: 'r' :: 'v' :: 'e' :: 'r' :: rest =>
    let seps := rest.takeWhile sepChar
    if seps.isEmpty then none
    else
      let word := (rest.drop seps.length).takeWhile wChar
      if word.isEmpty then none else some word
  | _ => none

/-- Leftmost match of `/server[:\s]+(\w+)/` anywhere in the text, as the
JavaScript engine finds it. -/
def findServerMention : List Char → Option (List Char)
  | [] => none
  | c :: rest =>
    match serverMentionAt (c :: rest) with
    | some word => some word
    | none => findServerMention rest

/-- IssuesHandler.autoLabelIssue (issues.ts lines 85-133): no-op without
octokit; with it, derives labels from the lowercased title and body and adds
them when nonempty (API failure caught and logged). -/
def IssuesHandler.autoLabelIssue (octokit : Option Octokit)
    (_repository : Repository) (issue : IssueData) : List String :=
  match octokit with
  | none => []
  | some _ =>
    let title := jsToLower issue.title
    let body := jsToLower (issue.body.getD "")
    let labels :=
      (if jsIncludes title "bug" || jsIncludes title "error" || jsIncludes title "issue" ||
          jsIncludes body "bug" || jsIncludes body "error" || jsIncludes body "broken" then
        ["bug"] else []) ++
      (if jsIncludes title "feature" || jsIncludes title "enhancement" ||
          jsIncludes title "add" || jsIncludes body "feature request" ||
          jsIncludes body "enhancement" then
        ["enhancement"] else []) ++
      (if jsIncludes title "doc" || jsIncludes title "readme" ||
          jsIncludes body "documentation" || jsIncludes body "docs" then
        ["documentation"] else []) ++
      (if jsIncludes title "question" || jsIncludes title "how to" ||
          jsIncludes body "question" || jsIncludes title "?" then
        ["question"] else [])
    if labels.length > 0 then ["issues.addLabels"] else []

/-- IssuesHandler.addWelcomeComment (issues.ts lines 135-173): comments only
when the author has exactly one issue in the repository. -/
def IssuesHandler.addWelcomeComment (octokit : Option Octokit)
    (repository : Repository) (issue : IssueData) : List String :=
  match octokit with
  | none => []
  | some ok =>
    ["issues.listForRepo"] ++
      (if ok.issuesListForRepoCreatorCount repository issue.user_login = 1 then
        ["issues.createComment"] else [])

/-- IssuesHandler.categorizeIssue (issues.ts lines 175-222): server-mention
and priority detection over the lowercased title and body; each addLabels is
guarded by an octokit check and its own try/catch. -/
def IssuesHandler.categorizeIssue (octokit : Option Octokit)
    (_repository : Repository) (issue : IssueData) : List String :=
  let title := jsToLower issue.title
  let body := jsToLower (issue.body.getD "")
  let serverCalls :=
    match findServerMention title.data with
    | some _ => if octokit.isSome then ["issues.addLabels"] else []
    | none =>
      match findServerMention body.data with
      | some _ => if octokit.isSome then ["issues.addLabels"] else []
      | none => []
  let priorityCalls :=
    if jsIncludes title "urgent" || jsIncludes title "critical" ||
        jsIncludes body "urgent" || jsIncludes body "critical" then
      if octokit.isSome then ["issues.addLabels"] else []
    else []
  serverCalls ++ priorityCalls

/-- IssuesHandler.handleIssueOpened (issues.ts lines 36-53). -/
def IssuesHandler.handleIssueOpened (octokit : Option Octokit)
    (repository : Repository) (issue : IssueData) : List String :=
  IssuesHandler.autoLabelIssue octokit repository issue ++
  IssuesHandler.addWelcomeComment octokit repository issue ++
  IssuesHandler.categorizeIssue octokit repository issue

/-- IssuesHandler.handle (issues.ts lines 7-34). Dereferences
`repository.full_name` and `issue.number` (log object), then switches on
`action`; the labeled and assigned branches destructure `label.name` and
`assignee.login`, which throw when those objects are absent. -/
def IssuesHandler.handle (octokit : Option Octokit) (payload : Payload) :
    Except String (List String) := do
  let repository ← jsGet payload.repository "full_name"
  let issue ← jsGet payload.issue "number"
  let action := payload.action
  if action = some "opened" then
    pure (IssuesHandler.handleIssueOpened octokit repository issue)
  else if action = some "closed" then
    pure []
  else if action = some "labeled" then do
    let _labelName ← jsGet payload.label_name "name"
    pure []
  else if action = some "assigned" then do
    let _assignee ← jsGet payload.assignee_login "login"
    pure []
  else
    pure []

/-- ReleaseHandler.generateReleaseMetrics (release.ts lines 170-200): with
octokit it resolves the previous release tag (repos.listReleases inside
getPreviousReleaseTag) and compares commits; failures are caught and
logged. -/
def ReleaseHandler.generateReleaseMetrics (octokit : Option Octokit)
    (_repository : Repository) (_release : ReleaseData) : List String :=
  match octokit with
  | none => []
  | some _ => ["repos.listReleases", "repos.compareCommits"]

/-- ReleaseHandler.verifyNpmPackages and verifyPyPIPackages (release.ts
lines 130-168): return early without octokit; with it they only consult the
placeholder package lists and log. -/
def ReleaseHandler.verifyPackages (octokit : Option Octokit)
    (_repository : Repository) (_release : ReleaseData) : List String :=
  match octokit with
  | none => []
  | some _ => []

/-- ReleaseHandler.handleReleasePublished (release.ts lines 36-53):
notifyNewRelease and validateReleaseNotes only log. -/
def ReleaseHandler.handleReleasePublished (octokit : Option Octokit)
    (repository : Repository) (release : ReleaseData) : List String :=
  ReleaseHandler.verifyPackages octokit repository release ++
  ReleaseHandler.generateReleaseMetrics octokit repository release

/-- ReleaseHandler.handle (release.ts lines 7-34). The log object reads
`release?.tag_name` with optional chaining, so a missing `release` does not
throw there; the action-specific helpers dereference `release.tag_name`
without it. -/
def ReleaseHandler.handle (octokit : Option Octokit) (payload : Payload) :
    Except String (List String) := do
  let repository ← jsGet payload.repository "full_name"
  let action := payload.action
  if action = some "published" then do
    let release ← jsGet payload.release "tag_name"
    pure (ReleaseHandler.handleReleasePublished octokit repository release)
  else if action = some "created" then do
    let _release ← jsGet payload.release "tag_name"
    pure []
  else if action = some "edited" then do
    let _release ← jsGet payload.release "tag_name"
    pure []
  else if action = some "deleted" then do
    let _release ← jsGet payload.release "tag_name"
    pure []
  else
    pure []

/-- WorkflowHandler.analyzeWorkflowFailure (workflow.ts lines 186-216):
no-op without octokit; with it, lists the run's jobs and logs the failed
ones (failure caught and logged). -/
def WorkflowHandler.analyzeWorkflowFailure (octokit : Option Octokit)
    (_repository : Repository) (_workflowRun : WorkflowRunData) : List String :=
  match octokit with
  | none => []
  | some _ => ["actions.listJobsForWorkflowRun"]

/-- WorkflowHandler.handleWorkflowCompleted (workflow.ts lines 34-59):
switches on `workflow_run.conclusion`; only the failure branch can reach an
API call (analyzeWorkflowFailure); the metrics and notification helpers only
log. -/
def WorkflowHandler.handleWorkflowCompleted (octokit : Option Octokit)
    (repository : Repository) (workflowRun : WorkflowRunData) : List String :=
  if workflowRun.conclusion = some "failure" then
    WorkflowHandler.analyzeWorkflowFailure octokit repository workflowRun
  else []

/-- WorkflowHandler.handle (workflow.ts lines 7-32). Dereferences
`repository.full_name` and the `workflow_run` log fields, then switches on
`action`; requested and in_progress branches only track metrics (logs). -/
def WorkflowHandler.handle (octokit : Option Octokit) (payload : Payload) :
    Except String (List String) := do
  let repository ← jsGet payload.repository "full_name"
  let workflowRun ← jsGet payload.workflow_run "name"
  let action := payload.action
  if action = some "completed" then
    pure (WorkflowHandler.handleWorkflowCompleted octokit repository workflowRun)
  else if action = some "requested" then
    pure []
  else if action = some "in_progress" then
    pure []
  else
    pure []

/-- RepositoryHandler.handle (repository.ts lines 7-37). Dereferences
`repository.full_name`; every action branch only calls logging helpers. -/
def RepositoryHandler.handle (_octokit : Option Octokit) (payload : Payload) :
    Except String (List String) := do
  let _repository ← jsGet payload.repository "full_name"
  pure []

/-- Event types with a registered handler: exactly the `webhooks.on`
registrations (index.ts lines 87-92) and the `handleEvent` switch cases
(handlers/index.ts lines 141-159). -/
def registeredEvents : List String :=
  ["push", "pull_request", "release", "workflow_run", "issues", "repository"]

/-- The routing of an event name to its handler, shared verbatim by the
`webhooks.on` registrations and the `handleEvent` switch: `none` for an
event type with no registered handler. -/
def WebhookHandlers.dispatch (octokit : Option Octokit) (eventName : String)
    (payload : Payload) : Option (Except String (List String)) :=
  if eventName = "push" then some (PushHandler.handle octokit payload)
  else if eventName = "pull_request" then some (PullRequestHandler.handle octokit payload)
  else if eventName = "release" then some (ReleaseHandler.handle octokit payload)
  else if eventName = "workflow_run" then some (WorkflowHandler.handle octokit payload)
  else if eventName = "issues" then some (IssuesHandler.handle octokit payload)
  else if eventName = "repository" then some (RepositoryHandler.handle octokit payload)
  else none

instance {ε α : Type} [DecidableEq ε] [DecidableEq α] : DecidableEq (Except ε α) := fun a b =>
  match a, b with
  | .ok x, .ok y =>
    if h : x = y then isTrue (by rw [h]) else isFalse (fun hc => h (Except.ok.inj hc))
  | .error x, .error y =>
    if h : x = y then isTrue (by rw [h]) else isFalse (fun hc => h (Except.error.inj hc))
  | .ok _, .error _ => isFalse (fun hc => Except.noConfusion hc)
  | .error _, .ok _ => isFalse (fun hc => Except.noConfusion hc)

/-- The event object @octokit/webhooks passes to a `webhooks.on` listener:
`{ id, name, payload }` (id is the delivery header, possibly absent). The
handlers destructure `repository`, `ref`, `action`, ... directly off their
argument; none of those properties exists on this object — the decoded
payload sits one level down, under the `payload` property, which no handler
reads. -/
structure EventWrapper where
  id : Option String
  name : String
  payload : Payload
deriving DecidableEq, Repr

/-- What a handler's destructuring sees when it is invoked as a
`webhooks.on` listener: a document on which every field the handlers read
(`repository`, `ref`, `commits`, `pusher`, `action`, ...) is absent,
because the event object carries only `id`, `name` and `payload`. -/
def EventWrapper.asPayload (_w : EventWrapper) : Payload := {}

/-- The argument of one `handle` invocation: the event object (listener
dispatch inside `verifyAndReceive`) or the decoded payload
(`handleEvent`). -/
inductive HandlerArg where
  | wrapper (w : EventWrapper)
  | payload (p : Payload)
deriving DecidableEq, Repr

/-- Outcome of one `WebhookHandlers.handleEvent` call (handlers/index.ts
lines 133-167): the result (the catch block rethrows, so a handler error
propagates), the `handle` invocations performed (event name with the
argument passed), the API calls of a successful invocation, and whether the
default branch logged `Unhandled event type`. -/
structure HandleEventResult where
  result : Except String Unit
  invocations : List (String × HandlerArg)
  apiCalls : List String
  warnedUnhandled : Bool
deriving DecidableEq, Repr

/-- WebhookHandlers.handleEvent (handlers/index.ts lines 133-167): unlike
the listener dispatch, it passes the handler the decoded payload itself. -/
def WebhookHandlers.handleEvent (octokit : Option Octokit) (eventName : String)
    (payload : Payload) : HandleEventResult :=
  match WebhookHandlers.dispatch octokit eventName payload with
  | some (.ok calls) => ⟨.ok (), [(eventName, .payload payload)], calls, false⟩
  | some (.error e) => ⟨.error e, [(eventName, .payload payload)], [], false⟩
  | none => ⟨.ok (), [], [], true⟩

/-- The request data the webhook endpoint reads: the three GitHub headers
(absent header = `none`) and the raw body bytes. -/
structure Request where
  xHubSignature256 : Option String := none
  xGitHubEvent : Option String := none
  xGitHubDelivery : Option String := none
  body : String := ""
deriving DecidableEq, Repr

/-- What the `verifySignature` middleware does with a request: respond
directly (`res.status(...).json({...})`), pass control on (`next()`), or
throw out of the middleware. -/
inductive MiddlewareResult where
  | response (status : Nat) (error : String)
  | next
  | thrown (error : String)
deriving DecidableEq, Repr

/-- The verifySignature middleware (index.ts lines 36-53). The JavaScript
`!signature` test is true for a missing header and for the empty string; the
comparison is `timingSafeEqual`, whose length-mismatch `RangeError`
propagates out of the middleware uncaught. -/
def verifySignature (hmacHex : String → String → String) (webhookSecret : String)
    (req : Request) : MiddlewareResult :=
  match req.xHubSignature256 with
  | none => .response 401 "Missing signature"
  | some signature =>
    if signature = "" then .response 401 "Missing signature"
    else
      let expectedSignature := "sha256=" ++ hmacHex webhookSecret req.body
      match timingSafeEqual signature expectedSignature with
      | .error e => .thrown e
      | .ok true => .next
      | .ok false => .response 401 "Invalid signature"

/-- Result of the `webhooks.verifyAndReceive` call (index.ts lines 69-74):
the promise outcome plus the handler invocations and API calls its event
emission performed. -/
structure ReceiveResult where
  result : Except String Unit
  invocations : List (String × HandlerArg)
  apiCalls : List String
deriving DecidableEq, Repr

/-- Models `webhooks.verifyAndReceive` of @octokit/webhooks: it requires the
name and signature options, re-verifies the signature over the payload
string with the instance secret (its own comparison returns false on
mismatch instead of throwing), parses the payload, and emits the event to
the listeners registered with `webhooks.on` (index.ts lines 87-92) — the
same six handlers as `handleEvent` — awaiting them, so a listener error
rejects the promise (the error hooks are also notified, which only logs).
Each listener is invoked with the event object `{ id, name, payload }`, not
with the payload, so the handler destructures `EventWrapper.asPayload`. -/
def verifyAndReceive (hmacHex : String → String → String)
    (decode : String → Option Payload) (secret : String) (octokit : Option Octokit)
    (deliveryId : Option String) (eventName : Option String)
    (signature : Option String) (body : String) : ReceiveResult :=
  match eventName, signature with
  | some name, some sig =>
    if sig = "sha256=" ++ hmacHex secret body then
      match decode body with
      | some payload =>
        let w : EventWrapper := ⟨deliveryId, name, payload⟩
        match WebhookHandlers.dispatch octokit name (EventWrapper.asPayload w) with
        | some (.ok calls) => ⟨.ok (), [(name, .wrapper w)], calls⟩
        | some (.error e) => ⟨.error e, [(name, .wrapper w)], []⟩
        | none => ⟨.ok (), [], []⟩
      | none => ⟨.error "could not parse event payload", [], []⟩
    else ⟨.error "signature does not match event payload and secret", [], []⟩
  | _, _ => ⟨.error "Missing required options", [], []⟩

/-- How one HTTP exchange with `POST /webhook` ends: a response produced by
the endpoint's own code; a synchronous middleware throw, which Express
catches and serves through its default error handler (a 500-class error
page, not a response of this code); or a rejection escaping the async route
handler, for which the route sends no response at all. -/
inductive HttpOutcome where
  | responded (status : Nat) (message : String)
  | caughtByFramework (error : String)
  | escaped (error : String)
deriving DecidableEq, Repr

/-- The observable behaviour of one delivery to `POST /webhook`. -/
structure RouteResult where
  outcome : HttpOutcome
  invocations : List (String × HandlerArg)
  apiCalls : List String
  warnedUnhandled : Bool
deriving DecidableEq, Repr

/-- The full `POST /webhook` exchange (index.ts lines 36-84): the
verifySignature middleware, then the route handler, in which
`JSON.parse(req.body.toString())` at line 64 runs BEFORE the try block — a
parse error escapes the route — and the try block runs
`webhooks.verifyAndReceive` and then `handlers.handleEvent`, responding 200
on success and 500 from the catch. -/
def webhookEndpoint (hmacHex : String → String → String)
    (decode : String → Option Payload) (secret : String) (octokit : Option Octokit)
    (req : Request) : RouteResult :=
  match verifySignature hmacHex secret req with
  | .response s e => ⟨.responded s e, [], [], false⟩
  | .thrown e => ⟨.caughtByFramework e, [], [], false⟩
  | .next =>
    match decode req.body with
    | none => ⟨.escaped "SyntaxError: Unexpected token in JSON", [], [], false⟩
    | some payload =>
      let recv := verifyAndReceive hmacHex decode secret octokit
        req.xGitHubDelivery req.xGitHubEvent req.xHubSignature256 req.body
      match recv.result with
      | .error _ =>
        ⟨.responded 500 "Internal server error", recv.invocations, recv.apiCalls, false⟩
      | .ok _ =>
        let h := WebhookHandlers.handleEvent octokit (req.xGitHubEvent.getD "") payload
        match h.result with
        | .error _ =>
          ⟨.responded 500 "Internal server error", recv.invocations ++ h.invocations,
            recv.apiCalls ++ h.apiCalls, h.warnedUnhandled⟩
        | .ok _ =>
          ⟨.responded 200 "Webhook processed successfully",
            recv.invocations ++ h.invocations, recv.apiCalls ++ h.apiCalls,
            h.warnedUnhandled⟩

/-! ## General behaviour of the pipeline -/

/-- The `sha256=` prefix keeps a formatted signature nonempty. -/
theorem sha256_prefixed_ne_empty (x : String) : "sha256=" ++ x ≠ "" := by
  intro h
  have h2 := congrArg String.length h
  rw [String.length_append] at h2
  have h7 : ("sha256=" : String).length = 7 := rfl
  have h0 : ("" : String).length = 0 := rfl
  omega

/-- A request carrying exactly the signature the middleware recomputes is
passed on to the route handler. -/
theorem verifySignature_valid (hm : String → String → String) (secret : String)
    (req : Request)
    (hsig : req.xHubSignature256 = some ("sha256=" ++ hm secret req.body)) :
    verifySignature hm secret req = .next := by
  have hne := sha256_prefixed_ne_empty (hm secret req.body)
  simp [verifySignature, hsig, hne, timingSafeEqual]

/-- An event name outside the registration table routes to no handler. -/
theorem dispatch_eq_none (ok : Option Octokit) (p : Payload) (e : String)
    (he : e ∉ registeredEvents) : WebhookHandlers.dispatch ok e p = none := by
  simp only [registeredEvents, List.mem_cons, List.not_mem_nil, or_false, not_or] at he
  obtain ⟨h1, h2, h3, h4, h5, h6⟩ := he
  simp [WebhookHandlers.dispatch, h1, h2, h3, h4, h5, h6]

/-- Every handler-read field is absent on the event object, so each of the
six registered handlers throws a TypeError at its very first dereference —
push on `ref.replace`, the other five on `repository.full_name` — whatever
the octokit configuration. -/
theorem dispatch_wrapper_throws (ok : Option Octokit) (e : String)
    (he : e ∈ registeredEvents) :
    WebhookHandlers.dispatch ok e ({} : Payload) =
      some (.error (if e = "push"
        then "TypeError: Cannot read properties of undefined (reading replace)"
        else "TypeError: Cannot read properties of undefined (reading full_name)")) := by
  simp only [registeredEvents, List.mem_cons, List.not_mem_nil, or_false] at he
  rcases he with h | h | h | h | h | h <;> subst h <;>
    simp [WebhookHandlers.dispatch, PushHandler.handle, PullRequestHandler.handle,
      ReleaseHandler.handle, WorkflowHandler.handle, IssuesHandler.handle,
      RepositoryHandler.handle, jsGet, Bind.bind, Except.bind]

/-- Shape of a validly signed, well-formed delivery of a registered event
type: `verifyAndReceive` hands the listener the event object, the selected
handler throws on it, the route catch answers 500, and `handleEvent` is
never reached — one handler invocation, carrying the wrapper. -/
theorem webhookEndpoint_valid_registered (hm : String → String → String)
    (dec : String → Option Payload) (secret : String) (ok : Option Octokit)
    (req : Request) (e : String) (p : Payload)
    (hsig : req.xHubSignature256 = some ("sha256=" ++ hm secret req.body))
    (hev : req.xGitHubEvent = some e)
    (hdec : dec req.body = some p)
    (hreg : e ∈ registeredEvents) :
    webhookEndpoint hm dec secret ok req =
      ⟨.responded 500 "Internal server error",
        [(e, .wrapper ⟨req.xGitHubDelivery, e, p⟩)], [], false⟩ := by
  have hnext := verifySignature_valid hm secret req hsig
  have hw := dispatch_wrapper_throws ok e hreg
  simp [webhookEndpoint, hnext, hdec, hev, hsig, verifyAndReceive,
    EventWrapper.asPayload, hw]

/-- Shape of a validly signed, well-formed delivery of an unregistered
event type: no listener matches, `verifyAndReceive` resolves, the
`handleEvent` default branch logs, and the route answers 200 with no
handler invocation and no API call. -/
theorem webhookEndpoint_valid_unregistered (hm : String → String → String)
    (dec : String → Option Payload) (secret : String) (ok : Option Octokit)
    (req : Request) (e : String) (p : Payload)
    (hsig : req.xHubSignature256 = some ("sha256=" ++ hm secret req.body))
    (hev : req.xGitHubEvent = some e)
    (hdec : dec req.body = some p)
    (hnr : e ∉ registeredEvents) :
    webhookEndpoint hm dec secret ok req =
      ⟨.responded 200 "Webhook processed successfully", [], [], true⟩ := by
  have hnext := verifySignature_valid hm secret req hsig
  have hw := dispatch_eq_none ok {} e hnr
  have hp := dispatch_eq_none ok p e hnr
  simp [webhookEndpoint, hnext, hdec, hev, hsig, verifyAndReceive,
    EventWrapper.asPayload, hw, WebhookHandlers.handleEvent, hp]

/-! ## Concrete instances for witnesses and counterexamples -/

/-- A stand-in for the HMAC-SHA-256 hex digest in concrete evaluations: a
fixed 64-hex-character output, the length `createHmac('sha256', ...)
.digest('hex')` always produces. -/
def hmacFixed (_secret _msg : String) : String :=
  "0123456789abcdef0123456789abcdef0123456789abcdef0123456789abcdef"

/-- A stand-in HMAC whose outputs have equal length but differ between
messages, for exercising the mismatch path. -/
def hmacToy (_secret msg : String) : String :=
  if msg = "x" then "aaaa" else "bbbb"

/-- A well-formed push payload (the concrete scenario of the spec, without
main-branch side work). -/
def payloadPushOk : Payload :=
  { ref := some "refs/heads/dev", repository := some ⟨"o/r", "o", "r"⟩,
    commits := some [⟨"c1", some ["package.json"], none, none⟩],
    pusher_name := some "u" }

/-- A push payload whose `ref` field is missing: `ref.replace` throws. -/
def payloadPushNoRef : Payload :=
  { repository := some ⟨"o/r", "o", "r"⟩, commits := some [], pusher_name := some "u" }

/-- A decode function representing a JSON body that parses to `payloadPushOk`. -/
def decodePushOk : String → Option Payload := fun _ => some payloadPushOk

/-- A decode function representing a JSON body that parses to `payloadPushNoRef`. -/
def decodePushNoRef : String → Option Payload := fun _ => some payloadPushNoRef

/-- A decode function representing a body that is not well-formed JSON. -/
def decodeNone : String → Option Payload := fun _ => none

/-- A correctly signed push delivery (signature computed with `hmacFixed`
and secret `s` over body `x`). -/
def reqPushOk : Request :=
  { xHubSignature256 := some ("sha256=" ++ hmacFixed "s" "x"),
    xGitHubEvent := some "push", xGitHubDelivery := some "d1", body := "x" }

/-! ## C1 — exactly-once handler invocation -/

/-- C1 counterexample: a validly signed push delivery with a well-formed
payload invokes the push handler exactly once, but with the event object
`{ id, name, payload }` that `webhooks.verifyAndReceive` passes to the
`webhooks.on` listener — not with the decoded payload — and the handler
throws on it, so the delivery ends 500 instead of reaching `handleEvent`.
The claimed once-with-the-decoded-payload invocation is false on the
code. -/
theorem C1_counterexample :
    (webhookEndpoint hmacFixed decodePushOk "s" none reqPushOk).invocations =
      [("push", .wrapper ⟨some "d1", "push", payloadPushOk⟩)] ∧
    ((webhookEndpoint hmacFixed decodePushOk "s" none reqPushOk).invocations =
      [("push", .payload payloadPushOk)] → False) ∧
    (webhookEndpoint hmacFixed decodePushOk "s" none reqPushOk).outcome =
      .responded 500 "Internal server error" :=
  ⟨by decide, fun h => absurd h (by decide), by decide⟩

/-- C1 amended: for every delivery with a valid signature, well-formed body
and registered event type, the handler's `handle` is invoked exactly once
per physical delivery, but with the @octokit/webhooks event object
`{ id, name, payload }` rather than the decoded payload; the handler throws
on that object and the endpoint responds 500 — `handleEvent`, which would
pass the decoded payload, is never reached for registered event types. -/
theorem C1_amended_once_with_wrapper (hm : String → String → String)
    (dec : String → Option Payload) (secret : String) (ok : Option Octokit)
    (req : Request) (e : String) (p : Payload)
    (hsig : req.xHubSignature256 = some ("sha256=" ++ hm secret req.body))
    (hev : req.xGitHubEvent = some e)
    (hdec : dec req.body = some p)
    (hreg : e ∈ registeredEvents) :
    (webhookEndpoint hm dec secret ok req).invocations =
      [(e, .wrapper ⟨req.xGitHubDelivery, e, p⟩)] ∧
    (webhookEndpoint hm dec secret ok req).outcome =
      .responded 500 "Internal server error" := by
  rw [webhookEndpoint_valid_registered hm dec secret ok req e p hsig hev hdec hreg]
  exact ⟨rfl, rfl⟩

/-- Witness for C1 amended at the concrete signed push delivery. -/
theorem C1_amended_once_with_wrapper_witness :
    (webhookEndpoint hmacFixed decodePushOk "s" none reqPushOk).invocations =
      [("push", .wrapper ⟨some "d1", "push", payloadPushOk⟩)] ∧
    (webhookEndpoint hmacFixed decodePushOk "s" none reqPushOk).outcome =
      .responded 500 "Internal server error" :=
  C1_amended_once_with_wrapper hmacFixed decodePushOk "s" none reqPushOk "push"
    payloadPushOk rfl rfl rfl (by decide)

/-! ## C2 — length-mismatched signature -/

/-- C2 evaluation at the repository's own invalid-signature test input
(webhook.test.ts sends `x-hub-signature-256: sha256=invalid` and expects
401): the provided value is 14 bytes, the computed `sha256=<hex>` string is
71 bytes, and `timingSafeEqual` throws its `RangeError` out of the
middleware instead of failing closed with 401 — Express serves the throw
through its default error handler, not through this code's 401 path. -/
theorem C2_length_mismatch_throws :
    verifySignature hmacFixed "test-secret"
        { xHubSignature256 := some "sha256=invalid", body := "{}" } =
      .thrown "Input buffers must have the same length" ∧
    (webhookEndpoint hmacFixed decodePushOk "test-secret" none
        { xHubSignature256 := some "sha256=invalid", body := "{}" }).outcome =
      .caughtByFramework "Input buffers must have the same length" := by
  exact ⟨by decide, by decide⟩

/-! ## C3 — malformed JSON body -/

/-- A correctly signed request whose body does not parse as JSON. -/
def reqMalformed : Request :=
  { xHubSignature256 := some ("sha256=" ++ hmacFixed "s" "not json"),
    xGitHubEvent := some "push", body := "not json" }

/-- C3 counterexample: with a valid signature and an unparseable body the
endpoint does not produce any response of its own — in particular no
4xx-class one — because `JSON.parse` at line 64 runs before the try block
and its error escapes the route handler. -/
theorem C3_counterexample :
    (webhookEndpoint hmacFixed decodeNone "s" none reqMalformed).outcome =
      .escaped "SyntaxError: Unexpected token in JSON" ∧
    ∀ status msg,
      (webhookEndpoint hmacFixed decodeNone "s" none reqMalformed).outcome =
        .responded status msg → False := by
  have h : (webhookEndpoint hmacFixed decodeNone "s" none reqMalformed).outcome =
      .escaped "SyntaxError: Unexpected token in JSON" := by decide
  refine ⟨h, fun status msg hr => ?_⟩
  rw [h] at hr
  exact HttpOutcome.noConfusion hr

/-- C3 amended: on a validly signed delivery whose body is not well-formed
JSON, the parse error escapes the route handler (the `JSON.parse` at line 64
precedes the try/catch), so the endpoint sends no response of its own — a
server-side failure, consistent with the spec's `500 {error} on parse
failure`, and in no case a 4xx-class response. -/
theorem C3_amended_parse_error_escapes (hm : String → String → String)
    (dec : String → Option Payload) (secret : String) (ok : Option Octokit)
    (req : Request)
    (hsig : req.xHubSignature256 = some ("sha256=" ++ hm secret req.body))
    (hdec : dec req.body = none) :
    (webhookEndpoint hm dec secret ok req).outcome =
      .escaped "SyntaxError: Unexpected token in JSON" ∧
    ∀ status msg,
      (webhookEndpoint hm dec secret ok req).outcome = .responded status msg →
        False := by
  have hnext := verifySignature_valid hm secret req hsig
  have h : (webhookEndpoint hm dec secret ok req).outcome =
      .escaped "SyntaxError: Unexpected token in JSON" := by
    simp [webhookEndpoint, hnext, hdec]
  refine ⟨h, fun status msg hr => ?_⟩
  rw [h] at hr
  exact HttpOutcome.noConfusion hr

/-- Witness for C3 amended at the concrete malformed delivery. -/
theorem C3_amended_parse_error_escapes_witness :
    (webhookEndpoint hmacFixed decodeNone "s" none reqMalformed).outcome =
      .escaped "SyntaxError: Unexpected token in JSON" ∧
    ∀ status msg,
      (webhookEndpoint hmacFixed decodeNone "s" none reqMalformed).outcome =
        .responded status msg → False :=
  C3_amended_parse_error_escapes hmacFixed decodeNone "s" none reqMalformed rfl rfl

/-! ## C4 — missing signature header -/

/-- C4: a request without the X-Hub-Signature-256 header is rejected 401
with reason `Missing signature` whatever the body holds, and that reason
differs from the `Invalid signature` reason produced for a header that is
present but fails the comparison (at matching byte length). -/
theorem C4_missing_signature_rejected (hm : String → String → String)
    (dec : String → Option Payload) (secret : String) (ok : Option Octokit)
    (req : Request)
    (hmiss : req.xHubSignature256 = none) :
    (webhookEndpoint hm dec secret ok req).outcome =
      .responded 401 "Missing signature" ∧
    "Missing signature" ≠ "Invalid signature" ∧
    ∀ (req2 : Request) (sig : String), req2.xHubSignature256 = some sig →
      sig ≠ "" → sig ≠ "sha256=" ++ hm secret req2.body →
      sig.utf8ByteSize = ("sha256=" ++ hm secret req2.body).utf8ByteSize →
      (webhookEndpoint hm dec secret ok req2).outcome =
        .responded 401 "Invalid signature" := by
  refine ⟨by simp [webhookEndpoint, verifySignature, hmiss], by decide, ?_⟩
  intro req2 sig h1 h2 h3 h4
  have h5 : (sig == "sha256=" ++ hm secret req2.body) = false :=
    beq_eq_false_iff_ne.mpr h3
  simp [webhookEndpoint, verifySignature, h1, h2, timingSafeEqual, h4, h5]

/-- Witness for C4 at a body-carrying request without the header and the
repository test's fixed-length mismatch. -/
theorem C4_missing_signature_rejected_witness :
    (webhookEndpoint hmacFixed decodePushOk "s" none { body := "anything" }).outcome =
      .responded 401 "Missing signature" ∧
    "Missing signature" ≠ "Invalid signature" ∧
    ∀ (req2 : Request) (sig : String), req2.xHubSignature256 = some sig →
      sig ≠ "" → sig ≠ "sha256=" ++ hmacFixed "s" req2.body →
      sig.utf8ByteSize = ("sha256=" ++ hmacFixed "s" req2.body).utf8ByteSize →
      (webhookEndpoint hmacFixed decodePushOk "s" none req2).outcome =
        .responded 401 "Invalid signature" :=
  C4_missing_signature_rejected hmacFixed decodePushOk "s" none { body := "anything" } rfl

/-! ## C5 — handler failure isolation -/

/-- C5 counterexample: `payloadPushOk` is a payload on which the push
handler does not throw (it returns cleanly, performing no API call), yet
the validly signed delivery carrying it is answered 500, not 200: the
listener dispatch inside `verifyAndReceive` hands the handler the event
object, on which it throws. So a subsequent delivery whose handler does not
throw does NOT receive a 200 response, refuting the claim. -/
theorem C5_counterexample :
    PushHandler.handle none payloadPushOk = .ok [] ∧
    (webhookEndpoint hmacFixed decodePushOk "s" none reqPushOk).outcome =
      .responded 500 "Internal server error" ∧
    ((webhookEndpoint hmacFixed decodePushOk "s" none reqPushOk).outcome =
      .responded 200 "Webhook processed successfully" → False) :=
  ⟨by decide, by decide, fun h => absurd h (by decide)⟩

/-- A correctly signed push delivery whose payload lacks `ref`. -/
def reqPushNoRef : Request :=
  { xHubSignature256 := some ("sha256=" ++ hmacFixed "s" "y"),
    xGitHubEvent := some "push", body := "y" }

/-- C5 amended: a validly signed delivery of a registered event type is
answered 500 by the route's own catch — a response, not a crash or an
escaped exception, so the process keeps serving — and each delivery's
outcome is a function of that request alone. But no registered-event
delivery ever receives 200, because the listener dispatch inside
`verifyAndReceive` hands every registered handler the event object, on
which it throws; only a delivery of an unregistered event type (which
invokes no handler) still receives 200 after failures elsewhere. -/
theorem C5_amended_failure_isolated :
    (∀ (hm : String → String → String) (dec : String → Option Payload)
      (secret : String) (ok : Option Octokit) (req : Request) (e : String)
      (p : Payload),
      req.xHubSignature256 = some ("sha256=" ++ hm secret req.body) →
      req.xGitHubEvent = some e → dec req.body = some p →
      e ∈ registeredEvents →
      (webhookEndpoint hm dec secret ok req).outcome =
        .responded 500 "Internal server error") ∧
    (∀ (hm : String → String → String) (dec : String → Option Payload)
      (secret : String) (ok : Option Octokit) (req : Request) (e : String)
      (p : Payload),
      req.xHubSignature256 = some ("sha256=" ++ hm secret req.body) →
      req.xGitHubEvent = some e → dec req.body = some p →
      e ∉ registeredEvents →
      (webhookEndpoint hm dec secret ok req).outcome =
        .responded 200 "Webhook processed successfully") := by
  constructor
  · intro hm dec secret ok req e p hsig hev hdec hreg
    rw [webhookEndpoint_valid_registered hm dec secret ok req e p hsig hev hdec hreg]
  · intro hm dec secret ok req e p hsig hev hdec hnr
    rw [webhookEndpoint_valid_unregistered hm dec secret ok req e p hsig hev hdec hnr]

/-! ## C6 — unregistered event types -/

/-- C6: a validly signed, well-formed delivery whose event type has no
registered handler is answered 200, no handler is invoked, no API call is
made, and the only trace is the `Unhandled event type` log of the
handleEvent default branch. -/
theorem C6_unregistered_no_invocation (hm : String → String → String)
    (dec : String → Option Payload) (secret : String) (ok : Option Octokit)
    (req : Request) (e : String) (p : Payload)
    (hsig : req.xHubSignature256 = some ("sha256=" ++ hm secret req.body))
    (hev : req.xGitHubEvent = some e)
    (hdec : dec req.body = some p)
    (hnr : e ∉ registeredEvents) :
    (webhookEndpoint hm dec secret ok req).outcome =
      .responded 200 "Webhook processed successfully" ∧
    (webhookEndpoint hm dec secret ok req).invocations = [] ∧
    (webhookEndpoint hm dec secret ok req).apiCalls = [] ∧
    (webhookEndpoint hm dec secret ok req).warnedUnhandled = true := by
  rw [webhookEndpoint_valid_unregistered hm dec secret ok req e p hsig hev hdec hnr]
  exact ⟨rfl, rfl, rfl, rfl⟩

/-- A correctly signed delivery with the spec's `unknown_event` type. -/
def reqUnknownEvent : Request :=
  { xHubSignature256 := some ("sha256=" ++ hmacFixed "s" "z"),
    xGitHubEvent := some "unknown_event", body := "z" }

/-- Witness for C6 at the `unknown_event` delivery. -/
theorem C6_unregistered_no_invocation_witness :
    (webhookEndpoint hmacFixed decodePushOk "s" none reqUnknownEvent).outcome =
      .responded 200 "Webhook processed successfully" ∧
    (webhookEndpoint hmacFixed decodePushOk "s" none reqUnknownEvent).invocations = [] ∧
    (webhookEndpoint hmacFixed decodePushOk "s" none reqUnknownEvent).apiCalls = [] ∧
    (webhookEndpoint hmacFixed decodePushOk "s" none reqUnknownEvent).warnedUnhandled =
      true :=
  C6_unregistered_no_invocation hmacFixed decodePushOk "s" none reqUnknownEvent
    "unknown_event" payloadPushOk rfl rfl rfl (by decide)

/-! ## C7 — the signature binds to the exact body bytes -/

/-- Byte length of a concatenation. -/
theorem utf8ByteSize_append (a b : String) :
    (a ++ b).utf8ByteSize = a.utf8ByteSize + b.utf8ByteSize := by
  cases a with
  | mk da =>
    cases b with
    | mk db =>
      show (String.mk (da ++ db)).utf8ByteSize = _
      rw [String.utf8ByteSize_mk, String.utf8ByteSize_mk, String.utf8ByteSize_mk]
      exact String.utf8Len_append da db

/-- Prefixing with `sha256=` is injective. -/
theorem sha256_prefixed_inj {x y : String} (h : "sha256=" ++ x = "sha256=" ++ y) :
    x = y := by
  have hd := congrArg String.data h
  rw [String.data_append, String.data_append] at hd
  have h2 := List.append_cancel_left hd
  cases x with
  | mk dx =>
    cases y with
    | mk dy => exact congrArg String.mk h2

/-- C7: for every body `B` and secret `S`, a request carrying the signature
computed over `B` with `S` passes the check, while the signature computed
over any `Bp` whose digest under `S` differs from that of `B` is rejected
401 (HMAC-SHA-256 hex digests all have 64 bytes, so the two formatted
signatures have equal byte length and the comparison itself runs). -/
theorem C7_signature_binds_bytes (hm : String → String → String)
    (secret B Bp : String) (req reqP : Request)
    (hb : req.body = B)
    (hs : req.xHubSignature256 = some ("sha256=" ++ hm secret B))
    (hb2 : reqP.body = B)
    (hs2 : reqP.xHubSignature256 = some ("sha256=" ++ hm secret Bp))
    (hdiff : hm secret Bp ≠ hm secret B)
    (hlen : (hm secret Bp).utf8ByteSize = (hm secret B).utf8ByteSize) :
    verifySignature hm secret req = .next ∧
    verifySignature hm secret reqP = .response 401 "Invalid signature" := by
  constructor
  · exact verifySignature_valid hm secret req (by rw [← hb] at hs; exact hs)
  · have hne := sha256_prefixed_ne_empty (hm secret Bp)
    have hlen2 : ("sha256=" ++ hm secret Bp).utf8ByteSize =
        ("sha256=" ++ hm secret reqP.body).utf8ByteSize := by
      rw [utf8ByteSize_append, utf8ByteSize_append, hb2, hlen]
    have hneq : ("sha256=" ++ hm secret Bp) ≠ ("sha256=" ++ hm secret reqP.body) := by
      rw [hb2]
      intro h
      exact hdiff (sha256_prefixed_inj h)
    have h5 : (("sha256=" ++ hm secret Bp) ==
        ("sha256=" ++ hm secret reqP.body)) = false := beq_eq_false_iff_ne.mpr hneq
    simp [verifySignature, hs2, hne, timingSafeEqual, hlen2, h5]

/-- Witness for C7 with a toy equal-length HMAC and bodies `x` and `y`. -/
theorem C7_signature_binds_bytes_witness :
    verifySignature hmacToy "s"
        { xHubSignature256 := some ("sha256=" ++ hmacToy "s" "x"), body := "x" } =
      .next ∧
    verifySignature hmacToy "s"
        { xHubSignature256 := some ("sha256=" ++ hmacToy "s" "y"), body := "x" } =
      .response 401 "Invalid signature" :=
  C7_signature_binds_bytes hmacToy "s" "x" "y"
    { xHubSignature256 := some ("sha256=" ++ hmacToy "s" "x"), body := "x" }
    { xHubSignature256 := some ("sha256=" ++ hmacToy "s" "y"), body := "x" }
    rfl rfl rfl rfl (by decide) (by decide)

/-! ## C8 — degraded no-octokit mode -/

theorem pushHandle_no_octokit (p : Payload) (r : Repository) (rf : String)
    (cs : List Commit) (pn : String)
    (hrep : p.repository = some r) (href : p.ref = some rf)
    (hcom : p.commits = some cs) (hpu : p.pusher_name = some pn) :
    PushHandler.handle none p = .ok [] := by
  simp [PushHandler.handle, Bind.bind, Except.bind, Pure.pure, Except.pure, jsGet, hrep, href, hcom, hpu,
    PushHandler.handleMainBranchPush, PushHandler.triggerServerTests,
    PushHandler.handleReleaseBranchPush]

theorem prHandle_no_octokit (p : Payload) (r : Repository)
    (pr : PullRequestData)
    (hrep : p.repository = some r) (hpr : p.pull_request = some pr) :
    PullRequestHandler.handle none p = .ok [] := by
  simp [PullRequestHandler.handle, Bind.bind, Except.bind, Pure.pure, Except.pure, jsGet, hrep, hpr,
    PullRequestHandler.handlePROpened, PullRequestHandler.addLabelsBasedOnChanges,
    PullRequestHandler.checkAffectedServers, PullRequestHandler.addWelcomeComment,
    PullRequestHandler.requestReviewers, PullRequestHandler.handlePRClosed]

theorem IssuesHandler.categorizeIssue_no_octokit (r : Repository) (i : IssueData) :
    IssuesHandler.categorizeIssue none r i = [] := by
  cases h1 : findServerMention (jsToLower i.title).data with
  | some w => simp [IssuesHandler.categorizeIssue, h1]
  | none =>
    cases h2 : findServerMention (jsToLower (i.body.getD "")).data with
    | some w => simp [IssuesHandler.categorizeIssue, h1, h2]
    | none => simp [IssuesHandler.categorizeIssue, h1, h2]

theorem issuesHandle_no_octokit (p : Payload) (r : Repository)
    (i : IssueData) (ln al : String)
    (hrep : p.repository = some r) (hiss : p.issue = some i)
    (hlab : p.label_name = some ln) (hass : p.assignee_login = some al) :
    IssuesHandler.handle none p = .ok [] := by
  simp [IssuesHandler.handle, Bind.bind, Except.bind, Pure.pure, Except.pure, jsGet, hrep, hiss, hlab, hass,
    IssuesHandler.handleIssueOpened, IssuesHandler.autoLabelIssue,
    IssuesHandler.addWelcomeComment, IssuesHandler.categorizeIssue_no_octokit r i]

theorem releaseHandle_no_octokit (p : Payload) (r : Repository)
    (rel : ReleaseData)
    (hrep : p.repository = some r) (hrel : p.release = some rel) :
    ReleaseHandler.handle none p = .ok [] := by
  simp [ReleaseHandler.handle, Bind.bind, Except.bind, Pure.pure, Except.pure, jsGet, hrep, hrel,
    ReleaseHandler.handleReleasePublished, ReleaseHandler.verifyPackages,
    ReleaseHandler.generateReleaseMetrics]

theorem workflowHandle_no_octokit (p : Payload) (r : Repository)
    (wr : WorkflowRunData)
    (hrep : p.repository = some r) (hwr : p.workflow_run = some wr) :
    WorkflowHandler.handle none p = .ok [] := by
  simp [WorkflowHandler.handle, Bind.bind, Except.bind, Pure.pure, Except.pure, jsGet, hrep, hwr,
    WorkflowHandler.handleWorkflowCompleted, WorkflowHandler.analyzeWorkflowFailure]

theorem repoHandle_no_octokit (p : Payload) (r : Repository)
    (hrep : p.repository = some r) :
    RepositoryHandler.handle none p = .ok [] := by
  simp [RepositoryHandler.handle, Bind.bind, Except.bind, Pure.pure, Except.pure, jsGet, hrep]

/-- With no octokit configured, the routing table sends every registered
event type to a handler run that performs no API call and does not throw
(given the payload carries every field the handlers dereference). -/
theorem WebhookHandlers.dispatch_no_octokit (e : String) (p : Payload)
    (r : Repository) (rf pn ln al : String) (cs : List Commit)
    (pr : PullRequestData) (i : IssueData) (rel : ReleaseData)
    (wr : WorkflowRunData)
    (hrep : p.repository = some r) (href : p.ref = some rf)
    (hcom : p.commits = some cs) (hpu : p.pusher_name = some pn)
    (hpr : p.pull_request = some pr) (hiss : p.issue = some i)
    (hlab : p.label_name = some ln) (hass : p.assignee_login = some al)
    (hrel : p.release = some rel) (hwr : p.workflow_run = some wr)
    (he : e ∈ registeredEvents) :
    WebhookHandlers.dispatch none e p = some (.ok []) := by
  simp only [registeredEvents, List.mem_cons, List.not_mem_nil, or_false] at he
  rcases he with h | h | h | h | h | h <;> subst h <;>
    simp [WebhookHandlers.dispatch,
      pushHandle_no_octokit p r rf cs pn hrep href hcom hpu,
      prHandle_no_octokit p r pr hrep hpr,
      issuesHandle_no_octokit p r i ln al hrep hiss hlab hass,
      releaseHandle_no_octokit p r rel hrep hrel,
      workflowHandle_no_octokit p r wr hrep hwr,
      repoHandle_no_octokit p r hrep]

/-- A payload carrying every field any handler dereferences. -/
def payloadFull : Payload :=
  { action := some "opened", repository := some ⟨"o/r", "o", "r"⟩,
    ref := some "refs/heads/main",
    commits := some [⟨"c1", some ["src/a/x.ts"], none, none⟩],
    pusher_name := some "u", pull_request := some ⟨1, "T", "u", false, "main"⟩,
    issue := some ⟨2, "Bug: x", "u", some "b"⟩, label_name := some "l",
    assignee_login := some "a", release := some ⟨"v1", "R", false, none⟩,
    workflow_run := some ⟨"W", "completed", some "failure", "main", "u"⟩ }

/-- A decode function representing a body parsing to `payloadFull`. -/
def decodeFull : String → Option Payload := fun _ => some payloadFull

/-- A correctly signed issues delivery for the full payload. -/
def reqIssuesFull : Request :=
  { xHubSignature256 := some ("sha256=" ++ hmacFixed "s" "w"),
    xGitHubEvent := some "issues", body := "w" }

/-- C8 counterexample: with octokit null and the full payload, the issues
handler itself would skip every API call and return cleanly, yet the
validly signed issues delivery is answered 500, not 200 — the listener
throws on the event object before the credential could matter. -/
theorem C8_counterexample :
    IssuesHandler.handle none payloadFull = .ok [] ∧
    (webhookEndpoint hmacFixed decodeFull "s" none reqIssuesFull).outcome =
      .responded 500 "Internal server error" ∧
    ((webhookEndpoint hmacFixed decodeFull "s" none reqIssuesFull).outcome =
      .responded 200 "Webhook processed successfully" → False) :=
  ⟨by decide, by decide, fun h => absurd h (by decide)⟩

/-- C8 amended: with the octokit client null (no GITHUB_TOKEN), every
handler operation that requires the API skips — the handler, applied to a
payload carrying the fields it dereferences, returns without performing any
call and without throwing. A delivery for a registered event type
nevertheless responds 500, with no API call performed, and identically so
with or without octokit: the listener dispatch inside `verifyAndReceive`
hands the handler the event object, on which it throws before the
credential could matter, so the missing credential itself never changes a
delivery's outcome. -/
theorem C8_amended_no_octokit_degraded (hm : String → String → String)
    (dec : String → Option Payload) (secret : String) (req : Request)
    (e : String) (p : Payload) (r : Repository) (rf pn ln al : String)
    (cs : List Commit) (pr : PullRequestData) (i : IssueData)
    (rel : ReleaseData) (wr : WorkflowRunData)
    (hsig : req.xHubSignature256 = some ("sha256=" ++ hm secret req.body))
    (hev : req.xGitHubEvent = some e)
    (hdec : dec req.body = some p)
    (hrep : p.repository = some r) (href : p.ref = some rf)
    (hcom : p.commits = some cs) (hpu : p.pusher_name = some pn)
    (hpr : p.pull_request = some pr) (hiss : p.issue = some i)
    (hlab : p.label_name = some ln) (hass : p.assignee_login = some al)
    (hrel : p.release = some rel) (hwr : p.workflow_run = some wr)
    (hreg : e ∈ registeredEvents) :
    WebhookHandlers.dispatch none e p = some (.ok []) ∧
    ∀ ok : Option Octokit,
      (webhookEndpoint hm dec secret ok req).outcome =
        .responded 500 "Internal server error" ∧
      (webhookEndpoint hm dec secret ok req).apiCalls = [] := by
  refine ⟨WebhookHandlers.dispatch_no_octokit e p r rf pn ln al cs pr i rel wr
    hrep href hcom hpu hpr hiss hlab hass hrel hwr hreg, ?_⟩
  intro ok
  rw [webhookEndpoint_valid_registered hm dec secret ok req e p hsig hev hdec hreg]
  exact ⟨rfl, rfl⟩

/-- Witness for C8 amended at a signed issues delivery. -/
theorem C8_amended_no_octokit_degraded_witness :
    WebhookHandlers.dispatch none "issues" payloadFull = some (.ok []) ∧
    ∀ ok : Option Octokit,
      (webhookEndpoint hmacFixed decodeFull "s" ok reqIssuesFull).outcome =
        .responded 500 "Internal server error" ∧
      (webhookEndpoint hmacFixed decodeFull "s" ok reqIssuesFull).apiCalls = [] :=
  C8_amended_no_octokit_degraded hmacFixed decodeFull "s" reqIssuesFull "issues"
    payloadFull ⟨"o/r", "o", "r"⟩ "refs/heads/main" "u" "l" "a"
    [⟨"c1", some ["src/a/x.ts"], none, none⟩] ⟨1, "T", "u", false, "main"⟩
    ⟨2, "Bug: x", "u", some "b"⟩ ⟨"v1", "R", false, none⟩
    ⟨"W", "completed", some "failure", "main", "u"⟩
    rfl rfl rfl rfl rfl rfl rfl rfl rfl rfl rfl rfl rfl (by decide)

/-! ## C9 — missing payload fields make the handler throw -/

/-- A push payload missing any of the four dereferenced fields makes
PushHandler.handle throw the corresponding TypeError. -/
theorem pushHandle_missing_field (ok : Option Octokit) (p : Payload)
    (h : p.ref = none ∨ p.repository = none ∨ p.commits = none ∨
      p.pusher_name = none) :
    ∃ msg, PushHandler.handle ok p = .error msg := by
  unfold PushHandler.handle
  cases href : p.ref with
  | none =>
    exact ⟨"TypeError: Cannot read properties of undefined (reading replace)",
      by simp [jsGet, href, Bind.bind, Except.bind]⟩
  | some rf =>
    cases hrep : p.repository with
    | none =>
      exact ⟨"TypeError: Cannot read properties of undefined (reading full_name)",
        by simp [jsGet, href, hrep, Bind.bind, Except.bind]⟩
    | some r =>
      cases hcom : p.commits with
      | none =>
        exact ⟨"TypeError: Cannot read properties of undefined (reading length)",
          by simp [jsGet, href, hrep, hcom, Bind.bind, Except.bind]⟩
      | some cs =>
        cases hpu : p.pusher_name with
        | none =>
          exact ⟨"TypeError: Cannot read properties of undefined (reading name)",
            by simp [jsGet, href, hrep, hcom, hpu, Bind.bind, Except.bind]⟩
        | some pn =>
          exfalso
          rcases h with h | h | h | h
          · rw [h] at href; exact Option.noConfusion href
          · rw [h] at hrep; exact Option.noConfusion hrep
          · rw [h] at hcom; exact Option.noConfusion hcom
          · rw [h] at hpu; exact Option.noConfusion hpu

/-- A pull_request payload missing `repository` or `pull_request` makes
PullRequestHandler.handle throw. -/
theorem prHandle_missing_field (ok : Option Octokit) (p : Payload)
    (h : p.repository = none ∨ p.pull_request = none) :
    ∃ msg, PullRequestHandler.handle ok p = .error msg := by
  unfold PullRequestHandler.handle
  cases hrep : p.repository with
  | none =>
    exact ⟨"TypeError: Cannot read properties of undefined (reading full_name)",
      by simp [jsGet, hrep, Bind.bind, Except.bind]⟩
  | some r =>
    cases hpr : p.pull_request with
    | none =>
      exact ⟨"TypeError: Cannot read properties of undefined (reading number)",
        by simp [jsGet, hrep, hpr, Bind.bind, Except.bind]⟩
    | some pr =>
      exfalso
      rcases h with h | h
      · rw [h] at hrep; exact Option.noConfusion hrep
      · rw [h] at hpr; exact Option.noConfusion hpr

/-- C9: on a validly signed, well-formed delivery of a registered event type
whose payload lacks a field the selected handler dereferences — `ref`,
`repository`, `commits` or `pusher` for push; `repository` or `pull_request`
for pull_request — the handler throws and the endpoint responds 500, so the
200-on-acceptance behaviour only holds when those fields are present. -/
theorem C9_missing_payload_fields_500 :
    (∀ (hm : String → String → String) (dec : String → Option Payload)
      (secret : String) (ok : Option Octokit) (req : Request) (p : Payload),
      req.xHubSignature256 = some ("sha256=" ++ hm secret req.body) →
      req.xGitHubEvent = some "push" → dec req.body = some p →
      (p.ref = none ∨ p.repository = none ∨ p.commits = none ∨
        p.pusher_name = none) →
      (∃ msg, PushHandler.handle ok p = .error msg) ∧
      (webhookEndpoint hm dec secret ok req).outcome =
        .responded 500 "Internal server error") ∧
    (∀ (hm : String → String → String) (dec : String → Option Payload)
      (secret : String) (ok : Option Octokit) (req : Request) (p : Payload),
      req.xHubSignature256 = some ("sha256=" ++ hm secret req.body) →
      req.xGitHubEvent = some "pull_request" → dec req.body = some p →
      (p.repository = none ∨ p.pull_request = none) →
      (∃ msg, PullRequestHandler.handle ok p = .error msg) ∧
      (webhookEndpoint hm dec secret ok req).outcome =
        .responded 500 "Internal server error") := by
  constructor
  · intro hm dec secret ok req p hsig hev hdec hmiss
    refine ⟨pushHandle_missing_field ok p hmiss, ?_⟩
    rw [webhookEndpoint_valid_registered hm dec secret ok req "push" p hsig hev hdec
      (by decide)]
  · intro hm dec secret ok req p hsig hev hdec hmiss
    refine ⟨prHandle_missing_field ok p hmiss, ?_⟩
    rw [webhookEndpoint_valid_registered hm dec secret ok req "pull_request" p hsig hev
      hdec (by decide)]

/-! ## C10 — the affected-server computations -/

theorem mem_addServer (acc : List String) (f s : String) :
    s ∈ addServer acc f ↔ s ∈ acc ∨ serverMatch f = some s := by
  unfold addServer
  cases hm : serverMatch f with
  | none => simp [hm]
  | some m =>
    by_cases hmem : m ∈ acc
    · simp only [hmem, if_true]
      constructor
      · exact fun h => Or.inl h
      · rintro (h | h)
        · exact h
        · rw [Option.some.inj h] at hmem; exact hmem
    · simp only [hmem, if_false, List.mem_append, List.mem_singleton]
      constructor
      · rintro (h | h)
        · exact Or.inl h
        · exact Or.inr (by rw [h])
      · rintro (h | h)
        · exact Or.inl h
        · exact Or.inr (Option.some.inj h).symm

theorem nodup_addServer (acc : List String) (f : String) (h : acc.Nodup) :
    (addServer acc f).Nodup := by
  unfold addServer
  cases serverMatch f with
  | none => exact h
  | some m =>
    by_cases hmem : m ∈ acc
    · simpa [hmem] using h
    · simp only [hmem, if_false]
      rw [List.nodup_append]
      exact ⟨h, List.nodup_singleton m,
        fun a ha hb => hmem (by rwa [List.mem_singleton.mp hb] at ha)⟩

theorem mem_foldl_addServer (paths : List String) (acc : List String) (s : String) :
    s ∈ paths.foldl addServer acc ↔ s ∈ acc ∨ ∃ f ∈ paths, serverMatch f = some s := by
  induction paths generalizing acc with
  | nil => simp
  | cons f rest ih =>
    rw [List.foldl_cons, ih, mem_addServer, List.exists_mem_cons_iff]
    tauto

theorem nodup_foldl_addServer (paths : List String) (acc : List String)
    (h : acc.Nodup) : (paths.foldl addServer acc).Nodup := by
  induction paths generalizing acc with
  | nil => exact h
  | cons f rest ih => exact ih _ (nodup_addServer acc f h)

/-- Iterating over commits and their changed files is iterating over the
flattened changed-file list. -/
theorem getAffectedServers_eq_fromPaths (commits : List Commit) :
    PushHandler.getAffectedServers commits =
      PullRequestHandler.getAffectedServersFromPaths
        (commits.flatMap changedFilesOf) := by
  unfold PushHandler.getAffectedServers PullRequestHandler.getAffectedServersFromPaths
  suffices h : ∀ acc : List String,
      commits.foldl (fun servers c => (changedFilesOf c).foldl addServer servers) acc =
        (commits.flatMap changedFilesOf).foldl addServer acc from h []
  intro acc
  induction commits generalizing acc with
  | nil => simp
  | cons c rest ih =>
    rw [List.foldl_cons, List.flatMap_cons, List.foldl_append, ih]

theorem takeWhile_slash_split (rest : List Char)
    (h : (rest.takeWhile (· ≠ '/')).length < rest.length) :
    ∃ t, rest = rest.takeWhile (· ≠ '/') ++ '/' :: t := by
  induction rest with
  | nil => simp at h
  | cons c cs ih =>
    by_cases hc : c = '/'
    · subst hc
      refine ⟨cs, ?_⟩
      rw [List.takeWhile_cons_of_neg (by simp)]
      rfl
    · rw [List.takeWhile_cons_of_pos (by simp [hc])] at h ⊢
      simp only [List.length_cons] at h
      obtain ⟨t, ht⟩ := ih (by omega)
      refine ⟨t, ?_⟩
      rw [List.cons_append, ← ht]

theorem takeWhile_append_slash (l t : List Char) (hall : ∀ c ∈ l, c ≠ '/') :
    (l ++ '/' :: t).takeWhile (· ≠ '/') = l := by
  induction l with
  | nil =>
    rw [List.nil_append, List.takeWhile_cons_of_neg (by simp)]
  | cons c cs ih =>
    rw [List.cons_append,
      List.takeWhile_cons_of_pos (by simpa using hall c (List.mem_cons_self c cs)),
      ih (fun a ha => hall a (List.mem_cons_of_mem c ha))]

/-- Characterization of the regex `/^src\/([^\/]+)\//` on character lists:
it captures `l` exactly when the path is `src/` + `l` + `/` + anything, with
`l` nonempty and slash-free. -/
theorem serverMatchL_eq_some (cs l : List Char) :
    serverMatchL cs = some l ↔
      l ≠ [] ∧ (∀ c ∈ l, c ≠ '/') ∧
      ∃ t, cs = 's' :: 'r' :: 'c' :: '/' :: (l ++ '/' :: t) := by
  constructor
  · intro h
    match cs, h with
    | a :: b :: c :: d :: rest, h =>
      simp only [serverMatchL] at h
      by_cases hx : a = 's' ∧ b = 'r' ∧ c = 'c' ∧ d = '/'
      · rw [if_pos hx] at h
        by_cases hy : rest.takeWhile (· ≠ '/') ≠ [] ∧
            (rest.takeWhile (· ≠ '/')).length < rest.length
        · rw [if_pos hy] at h
          have hl : rest.takeWhile (· ≠ '/') = l := Option.some.inj h
          obtain ⟨hx1, hx2, hx3, hx4⟩ := hx
          subst hx1; subst hx2; subst hx3; subst hx4
          refine ⟨by rw [← hl]; exact hy.1, ?_, ?_⟩
          · intro ch hch
            rw [← hl] at hch
            simpa using List.mem_takeWhile_imp hch
          · obtain ⟨t, ht⟩ := takeWhile_slash_split rest hy.2
            exact ⟨t, by rw [← hl, ← ht]⟩
        · rw [if_neg hy] at h
          exact Option.noConfusion h
      · rw [if_neg hx] at h
        exact Option.noConfusion h
  · rintro ⟨hne, hall, t, ht⟩
    subst ht
    simp only [serverMatchL]
    rw [if_pos ⟨trivial, trivial, trivial, trivial⟩]
    have hseg : (l ++ '/' :: t).takeWhile (· ≠ '/') = l := takeWhile_append_slash l t hall
    rw [hseg]
    rw [if_pos ⟨hne, by rw [List.length_append, List.length_cons]; omega⟩]

/-- The String-level match agrees with the character-list match. -/
theorem serverMatch_eq_some_iff (f s : String) :
    serverMatch f = some s ↔ serverMatchL f.data = some s.data := by
  unfold serverMatch
  cases hm : serverMatchL f.data with
  | none => simp
  | some l =>
    show some (String.mk l) = some s ↔ some l = some s.data
    constructor
    · intro h
      rw [← Option.some.inj h]
    · intro h
      rw [Option.some.inj h]

/-- C10: `getAffectedServers` returns, without duplicates, exactly the
strings `s` such that some commit's changed files (the `added`, `modified`
and `removed` arrays, each defaulting to empty when absent) contain a path
of the form `src/<s>/...` with `s` nonempty and slash-free;
`getAffectedServersFromPaths` computes the same set from a flat path list,
and on the flattened changed files it coincides with `getAffectedServers`
exactly. -/
theorem C10_affected_servers (commits : List Commit) (paths : List String)
    (s f : String) :
    (PushHandler.getAffectedServers commits).Nodup ∧
    (s ∈ PushHandler.getAffectedServers commits ↔
      ∃ c ∈ commits, ∃ g ∈ changedFilesOf c, serverMatch g = some s) ∧
    (PullRequestHandler.getAffectedServersFromPaths paths).Nodup ∧
    (s ∈ PullRequestHandler.getAffectedServersFromPaths paths ↔
      ∃ g ∈ paths, serverMatch g = some s) ∧
    PushHandler.getAffectedServers commits =
      PullRequestHandler.getAffectedServersFromPaths
        (commits.flatMap changedFilesOf) ∧
    (serverMatch f = some s ↔
      s ≠ "" ∧ (∀ c ∈ s.data, c ≠ '/') ∧
      ∃ t, f.data = 's' :: 'r' :: 'c' :: '/' :: (s.data ++ '/' :: t)) := by
  have hsne : s ≠ "" ↔ s.data ≠ [] := by
    constructor
    · intro h hd
      apply h
      cases s with
      | mk d => cases hd; rfl
    · intro h he
      apply h
      rw [he]
  refine ⟨?_, ?_, ?_, ?_, getAffectedServers_eq_fromPaths commits, ?_⟩
  · rw [getAffectedServers_eq_fromPaths commits]
    exact nodup_foldl_addServer _ [] List.nodup_nil
  · rw [getAffectedServers_eq_fromPaths commits]
    unfold PullRequestHandler.getAffectedServersFromPaths
    rw [mem_foldl_addServer]
    simp only [List.not_mem_nil, false_or, List.mem_flatMap]
    constructor
    · rintro ⟨g, ⟨c, hc, hg⟩, hmatch⟩
      exact ⟨c, hc, g, hg, hmatch⟩
    · rintro ⟨c, hc, g, hg, hmatch⟩
      exact ⟨g, ⟨c, hc, hg⟩, hmatch⟩
  · exact nodup_foldl_addServer _ [] List.nodup_nil
  · unfold PullRequestHandler.getAffectedServersFromPaths
    rw [mem_foldl_addServer]
    simp only [List.not_mem_nil, false_or]
  · rw [serverMatch_eq_some_iff, serverMatchL_eq_some, hsne]
